import Mathlib

/-!
Verification development for the `obsidian-pdf2md` plugin (`src/main.ts`).

The whole program is the single asynchronous method `convertFile` plus a
settings tab.  This file gives a shallow embedding of `convertFile`:

* strings are modelled as `List Char` (`Str`);
* the two `String.replace` calls on regular expressions
  `/^```(?:markdown)?\r?\n?/` and `/\r?\n?```$/` (src/main.ts:172) are
  translated to the deterministic matching procedure of those anchored
  regexes (`stripLead`, `stripTrail`, `strip`);
* the output-path computation `file.path.replace(/\.pdf$/i, '.md')`
  (src/main.ts:174) becomes `outputPath`;
* the HTTP pipeline of `convertFile` (src/main.ts:59-186) becomes a pure
  function from an environment of host/remote responses to the produced
  notices, the list of network calls issued, and the optional file write.
-/

/-- Strings of the JavaScript program, modelled as lists of characters. -/
abbrev Str := List Char

/-- The code-fence marker, three backquote characters. -/
def fence : Str := "```".data

/-- The optional language tag accepted by the leading-fence regex. -/
def mdTag : Str := "markdown".data

/-- A carriage-return, as matched by `\r?`. -/
def cr : Str := "\r".data

/-- A line-feed, as matched by `\n?`. -/
def nl : Str := "\n".data

/-- Remove `tag` from the front of `s` when present, otherwise leave `s`
unchanged.  This is the behaviour of one optional literal group of an
anchored regex. -/
def peelOpt (tag : Str) (s : Str) : Str :=
  if tag.isPrefixOf s then s.drop tag.length else s

/-- Translation of `markdown.replace(/^```(?:markdown)?\r?\n?/, '')`
(src/main.ts:172).  The anchored greedy match removes the three backquotes,
then the literal `markdown` if it follows, then an optional `\r`, then an
optional `\n`; if the string does not start with three backquotes nothing
is removed. -/
def stripLead (s : Str) : Str :=
  if fence.isPrefixOf s then
    peelOpt nl (peelOpt cr (peelOpt mdTag (s.drop fence.length)))
  else s

/-- Matching procedure of `/\r?\n?```$/` on the reversed string: the match
must end at the end of the input, so on the reversal we peel the fence,
then an optional `\n`, then an optional `\r` (the leftmost match of the
regex is the longest such suffix). -/
def stripTrailRev (r : Str) : Str :=
  if fence.reverse.isPrefixOf r then
    peelOpt cr (peelOpt nl (r.drop fence.reverse.length))
  else r

/-- Translation of `.replace(/\r?\n?```$/, '')` (src/main.ts:172). -/
def stripTrail (s : Str) : Str :=
  (stripTrailRev s.reverse).reverse

/-- The fence-stripping post-processor of src/main.ts:172: first the
leading-fence replacement, then the trailing-fence replacement. -/
def strip (s : Str) : Str :=
  stripTrail (stripLead s)

/-- Wrapping used by the round-trip property of the specification: prepend
the literal ```` ```markdown\n ```` and append ```` \n``` ````. -/
def wrap (t : Str) : Str :=
  "```markdown\n".data ++ t ++ "\n```".data

/-- A list is always prefixed by itself followed by anything. -/
theorem isPrefixOf_append_left (p t : Str) : p.isPrefixOf (p ++ t) = true := by
  induction p with
  | nil => simp
  | cons a as ih => simp [List.isPrefixOf, ih]

/-- A successful `isPrefixOf` test lets us split off the prefix. -/
theorem eq_append_drop_of_isPrefixOf :
    ∀ (p s : Str), p.isPrefixOf s = true → s = p ++ s.drop p.length := by
  intro p
  induction p with
  | nil => intro s _; simp
  | cons a as ih =>
    intro s h
    cases s with
    | nil => simp [List.isPrefixOf] at h
    | cons b bs =>
      rw [List.isPrefixOf_cons₂, Bool.and_eq_true, beq_iff_eq] at h
      obtain ⟨rfl, h2⟩ := h
      rw [List.length_cons, List.cons_append, List.drop_succ_cons]
      exact congrArg (List.cons a) (ih bs h2)

/-- Dropping the length of an appended prefix recovers the tail. -/
theorem drop_len_append (p t : Str) : (p ++ t).drop p.length = t := by
  induction p with
  | nil => simp
  | cons a as ih =>
    rw [List.cons_append, List.length_cons, List.drop_succ_cons]
    exact ih

/-- `peelOpt` splits its input into the removed (possibly empty) tag and
the remainder. -/
theorem peelOpt_spec (tag s : Str) :
    ∃ p, (p = [] ∨ p = tag) ∧ s = p ++ peelOpt tag s := by
  unfold peelOpt
  split
  · next h => exact ⟨tag, Or.inr rfl, eq_append_drop_of_isPrefixOf tag s h⟩
  · exact ⟨[], Or.inl rfl, by simp⟩

/-- `peelOpt` on a string that visibly carries the tag removes the tag. -/
theorem peelOpt_append (tag t : Str) : peelOpt tag (tag ++ t) = t := by
  unfold peelOpt
  rw [if_pos (isPrefixOf_append_left tag t), drop_len_append]

/-- `peelOpt` on a string not starting with the tag is the identity. -/
theorem peelOpt_eq_of_not (tag s : Str) (h : tag.isPrefixOf s = false) :
    peelOpt tag s = s := by
  unfold peelOpt
  rw [h]
  simp

/-- When the input does not start with a fence, the leading replacement is
the identity. -/
theorem stripLead_eq_of_not (x : Str) (h : fence.isPrefixOf x = false) :
    stripLead x = x := by
  unfold stripLead
  rw [h]
  simp

/-- The possible prefixes removed by the leading-fence regex. -/
def leadFences : List Str :=
  ["```markdown\r\n".data, "```markdown\r".data, "```markdown\n".data,
   "```markdown".data, "```\r\n".data, "```\r".data, "```\n".data, "```".data]

/-- The possible suffixes removed by the trailing-fence regex. -/
def tailFences : List Str :=
  ["\r\n```".data, "\r```".data, "\n```".data, "```".data]

/-- When the input starts with a fence, the leading replacement removes
exactly one of the eight fence prefixes. -/
theorem stripLead_decomp (x : Str) (h : fence.isPrefixOf x = true) :
    ∃ p, p ∈ leadFences ∧ x = p ++ stripLead x := by
  unfold stripLead
  rw [h]
  simp only [if_true]
  have hx := eq_append_drop_of_isPrefixOf fence x h
  obtain ⟨p1, hp1, e1⟩ := peelOpt_spec mdTag (x.drop fence.length)
  obtain ⟨p2, hp2, e2⟩ := peelOpt_spec cr (peelOpt mdTag (x.drop fence.length))
  obtain ⟨p3, hp3, e3⟩ :=
    peelOpt_spec nl (peelOpt cr (peelOpt mdTag (x.drop fence.length)))
  refine ⟨fence ++ p1 ++ p2 ++ p3, ?_, ?_⟩
  · rcases hp1 with rfl | rfl <;> rcases hp2 with rfl | rfl <;>
      rcases hp3 with rfl | rfl <;> decide
  · have e : x = fence ++ (p1 ++ (p2 ++ (p3 ++
        peelOpt nl (peelOpt cr (peelOpt mdTag (x.drop fence.length)))))) := by
      conv_lhs => rw [hx]
      rw [← e3, ← e2, ← e1]
    simp only [List.append_assoc]
    exact e

/-- Prefix test fails as soon as the first characters disagree. -/
theorem isPrefixOf_cons_of_ne (a b : Char) (as bs : Str) (h : (a == b) = false) :
    (a :: as).isPrefixOf (b :: bs) = false := by
  simp [List.isPrefixOf_cons₂, h]

/-- When the input does not end with a fence, the trailing replacement is
the identity. -/
theorem stripTrail_eq_of_not (y : Str) (h : fence.isSuffixOf y = false) :
    stripTrail y = y := by
  have h' : fence.reverse.isPrefixOf y.reverse = false := h
  unfold stripTrail stripTrailRev
  rw [h']
  simp

/-- When the input ends with a fence, the trailing replacement removes
exactly one of the four fence suffixes. -/
theorem stripTrail_decomp (y : Str) (h : fence.isSuffixOf y = true) :
    ∃ q, q ∈ tailFences ∧ y = stripTrail y ++ q := by
  have h' : fence.reverse.isPrefixOf y.reverse = true := h
  have hx := eq_append_drop_of_isPrefixOf fence.reverse y.reverse h'
  obtain ⟨p1, hp1, e1⟩ := peelOpt_spec nl (y.reverse.drop fence.reverse.length)
  obtain ⟨p2, hp2, e2⟩ :=
    peelOpt_spec cr (peelOpt nl (y.reverse.drop fence.reverse.length))
  have hrev : stripTrailRev y.reverse =
      peelOpt cr (peelOpt nl (y.reverse.drop fence.reverse.length)) := by
    unfold stripTrailRev
    rw [h']
    simp
  refine ⟨p2.reverse ++ p1.reverse ++ fence, ?_, ?_⟩
  · rcases hp1 with rfl | rfl <;> rcases hp2 with rfl | rfl <;> decide
  · have e : y.reverse =
        fence.reverse ++ (p1 ++ (p2 ++ stripTrailRev y.reverse)) := by
      conv_lhs => rw [hx]
      rw [hrev, ← e2, ← e1]
    have e' := congrArg List.reverse e
    simpa [stripTrail, List.reverse_append, List.append_assoc] using e'

/-- The last character of a string determines whether its reversal starts
with a carriage return. -/
theorem isPrefixOf_cr_reverse (t : Str) (h : t.getLast? ≠ some '\r') :
    cr.isPrefixOf t.reverse = false := by
  have hcr : cr = ['\r'] := by decide
  cases hrev : t.reverse with
  | nil => rw [hcr]; rfl
  | cons c cs =>
    have hc : t.getLast? = some c := by
      rw [← List.head?_reverse, hrev]
      rfl
    rw [hcr]
    apply isPrefixOf_cons_of_ne
    rw [beq_eq_false_iff_ne]
    intro hcx
    exact h (hcx ▸ hc)

/-- Claim C1, counterexample: `strip` is not idempotent.  On
`"```\n```\n```"` one application leaves `"```"`, but a second application
erases that remaining fence. -/
theorem c1_counterexample :
    strip (strip "```\n```\n```".data) ≠ strip "```\n```\n```".data := by
  decide

/-- Claim C1 (amended): `strip` is idempotent on every string whose single
application leaves no fence marker: if `strip x` neither starts nor ends
with three backquotes, then `strip (strip x) = strip x`, because the second
application finds no fence markers. -/
theorem c1_strip_idempotent_on_fence_free (x : Str)
    (h1 : fence.isPrefixOf (strip x) = false)
    (h2 : fence.isSuffixOf (strip x) = false) :
    strip (strip x) = strip x := by
  show stripTrail (stripLead (strip x)) = strip x
  rw [stripLead_eq_of_not _ h1]
  exact stripTrail_eq_of_not _ h2

/-- Claim C1, witness: the amended idempotence theorem applies to the
concrete output text `"# ok"`. -/
theorem c1_witness :
    strip (strip "# ok".data) = strip "# ok".data :=
  c1_strip_idempotent_on_fence_free "# ok".data (by decide) (by decide)

/-- Claim C2, counterexample: the round trip fails for the non-empty text
`"a\r"`.  The trailing-fence regex `\r?\n?```$` also consumes the final
carriage return of the wrapped text. -/
theorem c2_counterexample :
    "a\r".data ≠ [] ∧ strip (wrap "a\r".data) ≠ "a\r".data := by
  decide

/-- Claim C2 (amended): for every non-empty text whose last character is
not a carriage return, stripping the wrapped text returns exactly the
text. -/
theorem c2_round_trip (t : Str) (_h0 : t ≠ [])
    (h1 : t.getLast? ≠ some '\r') :
    strip (wrap t) = t := by
  have hpre : "```markdown\n".data = fence ++ (mdTag ++ nl) := by decide
  have hsuf : "\n```".data = nl ++ fence := by decide
  have hnl : nl = ['\n'] := by decide
  have hw : wrap t = fence ++ (mdTag ++ (nl ++ (t ++ (nl ++ fence)))) := by
    unfold wrap
    rw [hpre, hsuf]
    simp [List.append_assoc]
  have hcrnl : cr.isPrefixOf (nl ++ (t ++ (nl ++ fence))) = false := by
    rw [hnl, show cr = ['\r'] from by decide]
    apply isPrefixOf_cons_of_ne
    decide
  have hl : stripLead (wrap t) = t ++ (nl ++ fence) := by
    rw [hw]
    unfold stripLead
    rw [if_pos (isPrefixOf_append_left fence _), drop_len_append,
      peelOpt_append mdTag, peelOpt_eq_of_not cr _ hcrnl, peelOpt_append nl]
  have hrnl : nl.reverse = nl := by decide
  have ht : stripTrail (t ++ (nl ++ fence)) = t := by
    unfold stripTrail stripTrailRev
    have hr : (t ++ (nl ++ fence)).reverse =
        fence.reverse ++ (nl.reverse ++ t.reverse) := by
      simp [List.reverse_append]
    rw [hr, if_pos (isPrefixOf_append_left _ _), drop_len_append, hrnl,
      peelOpt_append nl, peelOpt_eq_of_not cr _ (isPrefixOf_cr_reverse t h1)]
    exact List.reverse_reverse t
  show stripTrail (stripLead (wrap t)) = t
  rw [hl, ht]

/-- Claim C2, witness: the amended round-trip theorem applies to the
concrete text `"# Title"`. -/
theorem c2_witness : strip (wrap "# Title".data) = "# Title".data :=
  c2_round_trip "# Title".data (by decide) (by decide)

/-- Claim C3, counterexample: the leading fence is removed even when it is
not followed by a newline: `strip "```abc" = "abc"`. -/
theorem c3_counterexample :
    strip "```abc".data = "abc".data ∧ "```abc".data ≠ "abc".data := by
  decide

/-- Claim C3 (amended): `strip x` removes one leading fence marker (three
backquotes with an optional `markdown` tag, then an optional carriage
return and an optional newline — a following newline is consumed but not
required), and one trailing fence marker (three backquotes optionally
preceded by a newline, itself optionally preceded by a carriage return),
each at most once and only at the very start/end, and performs no other
transformation: `x` is recovered by putting the removed pieces back, and a
piece is removed exactly when the corresponding fence is present. -/
theorem c3_strip_characterization (x : Str) :
    ∃ p q, x = p ++ strip x ++ q
  ∧ ((p = [] ∧ fence.isPrefixOf x = false)
      ∨ (p ∈ leadFences ∧ fence.isPrefixOf x = true))
  ∧ ((q = [] ∧ fence.isSuffixOf (stripLead x) = false)
      ∨ (q ∈ tailFences ∧ fence.isSuffixOf (stripLead x) = true)) := by
  have hstrip : strip x = stripTrail (stripLead x) := rfl
  by_cases h1 : fence.isPrefixOf x = true
  · obtain ⟨p, hp, e⟩ := stripLead_decomp x h1
    by_cases h2 : fence.isSuffixOf (stripLead x) = true
    · obtain ⟨q, hq, e2⟩ := stripTrail_decomp _ h2
      refine ⟨p, q, ?_, Or.inr ⟨hp, h1⟩, Or.inr ⟨hq, h2⟩⟩
      have e2' : stripLead x = strip x ++ q := e2
      conv_lhs => rw [e, e2']
      simp [List.append_assoc]
    · have h2' : fence.isSuffixOf (stripLead x) = false :=
        Bool.not_eq_true _ ▸ eq_false_of_ne_true h2
      have hq : strip x = stripLead x := stripTrail_eq_of_not _ h2'
      refine ⟨p, [], ?_, Or.inr ⟨hp, h1⟩, Or.inl ⟨rfl, h2'⟩⟩
      rw [List.append_nil, hq]
      exact e
  · have h1' : fence.isPrefixOf x = false :=
      Bool.not_eq_true _ ▸ eq_false_of_ne_true h1
    have hp : stripLead x = x := stripLead_eq_of_not _ h1'
    by_cases h2 : fence.isSuffixOf (stripLead x) = true
    · obtain ⟨q, hq, e2⟩ := stripTrail_decomp _ h2
      refine ⟨[], q, ?_, Or.inl ⟨rfl, h1'⟩, Or.inr ⟨hq, h2⟩⟩
      have e2' : stripLead x = strip x ++ q := e2
      rw [List.nil_append, ← e2', hp]
    · have h2' : fence.isSuffixOf (stripLead x) = false :=
        Bool.not_eq_true _ ▸ eq_false_of_ne_true h2
      have hq : strip x = stripLead x := stripTrail_eq_of_not _ h2'
      refine ⟨[], [], ?_, Or.inl ⟨rfl, h1'⟩, Or.inl ⟨rfl, h2'⟩⟩
      rw [List.nil_append, List.append_nil, hq, hp]

/-- The character class removed by JavaScript `String.prototype.trim`:
ECMAScript WhiteSpace and LineTerminator code points. -/
def jsWhitespace : List Char :=
  ['\t', '\n', '\u000B', '\u000C', '\r', ' ', ' ', ' ',
   ' ', ' ', ' ', ' ', ' ', ' ', ' ',
   ' ', ' ', ' ', ' ', ' ', ' ', ' ',
   ' ', '　', '﻿']

/-- Whether a character is trimmed by JavaScript `trim`. -/
def isJsSpace (c : Char) : Bool := jsWhitespace.contains c

/-- Translation of `this.settings.apiKey.trim()` (src/main.ts:68): remove
leading and trailing whitespace. -/
def trim (s : Str) : Str :=
  ((s.dropWhile isJsSpace).reverse.dropWhile isJsSpace).reverse

/-- Trimming a string of only whitespace yields the empty string. -/
theorem trim_eq_nil_of_space (s : Str) (h : ∀ c ∈ s, isJsSpace c = true) :
    trim s = [] := by
  unfold trim
  have h1 : s.dropWhile isJsSpace = [] := List.dropWhile_eq_nil_iff.mpr h
  rw [h1]
  rfl

/-- Matching procedure of `/\.pdf$/i` (src/main.ts:174): the last four
characters are a dot and the letters `pdf` in either case.  The
case-insensitive flag of the source regex pairs exactly `p`/`P`, `d`/`D`
and `f`/`F`. -/
def endsPdfCI (s : Str) : Bool :=
  match s.reverse with
  | c3 :: c2 :: c1 :: c0 :: _ =>
    (c0 == '.') && (c1 == 'p' || c1 == 'P') && (c2 == 'd' || c2 == 'D')
      && (c3 == 'f' || c3 == 'F')
  | _ => false

/-- Translation of `file.path.replace(/\.pdf$/i, '.md')` (src/main.ts:174):
replace a trailing case-insensitive `.pdf` by `.md`, otherwise leave the
path unchanged. -/
def outputPath (s : Str) : Str :=
  if endsPdfCI s then (s.reverse.drop 4).reverse ++ ".md".data else s

/-- Claim C9: the output path is obtained by replacing only a trailing,
case-insensitive `.pdf` with `.md`: the concrete mapping
`a/b/report.PDF ↦ a/b/report.md` holds, every path ending in a
case-insensitive `.pdf` has exactly that four-character suffix replaced,
and every other path (in particular one with only a non-trailing `.pdf`)
maps to itself. -/
theorem c9_output_path :
    outputPath "a/b/report.PDF".data = "a/b/report.md".data
  ∧ (∀ (pre : Str) (a b c : Char),
      (a = 'p' ∨ a = 'P') → (b = 'd' ∨ b = 'D') → (c = 'f' ∨ c = 'F') →
      outputPath (pre ++ ['.', a, b, c]) = pre ++ ".md".data)
  ∧ (∀ s : Str,
      (∀ (pre : Str) (a b c : Char), s = pre ++ ['.', a, b, c] →
        (a = 'p' ∨ a = 'P') → (b = 'd' ∨ b = 'D') → (c = 'f' ∨ c = 'F') →
        False) →
      outputPath s = s) := by
  refine ⟨by decide, ?_, ?_⟩
  · intro pre a b c h1 h2 h3
    have hrev : (pre ++ ['.', a, b, c]).reverse =
        c :: b :: a :: '.' :: pre.reverse := by
      simp
    have hB : endsPdfCI (pre ++ ['.', a, b, c]) = true := by
      unfold endsPdfCI
      rw [hrev]
      rcases h1 with rfl | rfl <;> rcases h2 with rfl | rfl <;>
        rcases h3 with rfl | rfl <;> rfl
    unfold outputPath
    rw [if_pos hB, hrev]
    simp
  · intro s hno
    unfold outputPath
    rw [if_neg]
    intro hB
    unfold endsPdfCI at hB
    rcases hrev : s.reverse with _ | ⟨c3, _ | ⟨c2, _ | ⟨c1, _ | ⟨c0, rest⟩⟩⟩⟩ <;>
      rw [hrev] at hB
    · exact Bool.noConfusion hB
    · exact Bool.noConfusion hB
    · exact Bool.noConfusion hB
    · exact Bool.noConfusion hB
    have hB' : ((c0 == '.') && (c1 == 'p' || c1 == 'P') && (c2 == 'd' || c2 == 'D')
        && (c3 == 'f' || c3 == 'F')) = true := hB
    rw [Bool.and_eq_true, Bool.and_eq_true, Bool.and_eq_true] at hB'
    obtain ⟨⟨⟨h0, h1⟩, h2⟩, h3⟩ := hB'
    rw [beq_iff_eq] at h0
    subst h0
    have hs : s = rest.reverse ++ ['.', c1, c2, c3] := by
      have := congrArg List.reverse hrev
      rw [List.reverse_reverse] at this
      rw [this]
      simp
    refine hno rest.reverse c1 c2 c3 hs ?_ ?_ ?_
    · rcases Bool.or_eq_true _ _ |>.mp h1 with h | h <;>
        [exact Or.inl (beq_iff_eq.mp h); exact Or.inr (beq_iff_eq.mp h)]
    · rcases Bool.or_eq_true _ _ |>.mp h2 with h | h <;>
        [exact Or.inl (beq_iff_eq.mp h); exact Or.inr (beq_iff_eq.mp h)]
    · rcases Bool.or_eq_true _ _ |>.mp h3 with h | h <;>
        [exact Or.inl (beq_iff_eq.mp h); exact Or.inr (beq_iff_eq.mp h)]

/-- Claim C9, witness: the path-mapping theorem applies to the concrete
upper-case path `notes/x.PdF` and to the non-pdf path `notes/x.txt`. -/
theorem c9_witness :
    outputPath ("notes/x".data ++ ['.', 'P', 'd', 'F']) =
      "notes/x".data ++ ".md".data :=
  c9_output_path.2.1 "notes/x".data 'P' 'd' 'F'
    (Or.inr rfl) (Or.inl rfl) (Or.inr rfl)

/-- Parsed JSON values, the results of `JSON.parse` on response bodies.
Numbers are modelled as integers (the bodies relevant to the pipeline
carry no fractional numbers), and an object keeps its fields as an
association list looked up from the front. -/
inductive Json where
  | null
  | bool (b : Bool)
  | num (n : Int)
  | str (s : Str)
  | arr (elems : List Json)
  | obj (fields : List (Str × Json))

/-- Field lookup in a parsed object. -/
def lookupField : List (Str × Json) → Str → Option Json
  | [], _ => none
  | (k, v) :: rest, key => if k == key then some v else lookupField rest key

/-- Runtime faults that reach the `catch` block of `convertFile`
(src/main.ts:182-185): a failing host binary read, a `SyntaxError` from
`JSON.parse`, a `TypeError` from a property access on `undefined` or
`null`, and the explicit `Error('No candidates returned')` thrown at
src/main.ts:166. -/
inductive JsError where
  | hostRead (msg : Str)
  | parseError
  | typeError
  | noCandidates
deriving DecidableEq

/-- JavaScript property access `v.k` on a parsed JSON value: it throws a
`TypeError` on `null`, returns the field (or `undefined`, here `none`) on
an object, and returns `undefined` on any other value. -/
def jsProp : Json → Str → Except JsError (Option Json)
  | .null, _ => .error .typeError
  | .obj fs, k => .ok (lookupField fs k)
  | _, _ => .ok none

/-- JavaScript property access on a possibly-`undefined` value: accessing
a property of `undefined` throws a `TypeError`. -/
def jsPropOpt : Option Json → Str → Except JsError (Option Json)
  | none, _ => .error .typeError
  | some j, k => jsProp j k

/-- JavaScript truthiness of a parsed JSON value. -/
def jsTruthy : Json → Bool
  | .null => false
  | .bool b => b
  | .num n => !(n == 0)
  | .str s => !s.isEmpty
  | .arr _ => true
  | .obj _ => true

/-- Truthiness of a possibly-`undefined` value (`undefined` is falsy). -/
def jsTruthyOpt : Option Json → Bool
  | none => false
  | some j => jsTruthy j

/-- The `length` property of a JSON value: arrays and strings have their
element count, objects may carry an explicit `length` field, and other
values have no such property (`undefined`). -/
def jsLength : Json → Option Json
  | .arr es => some (.num es.length)
  | .str s => some (.num s.length)
  | .obj fs => lookupField fs "length".data
  | _ => none

/-- `candidates?.length`: the optional chaining yields `undefined` when
the value is `null` or `undefined`, otherwise reads `length`. -/
def jsLengthOpt : Option Json → Option Json
  | none => none
  | some .null => none
  | some j => jsLength j

/-- `candidates[0]`: index access on the possible shapes of a parsed JSON
value (element of an array, one-character string of a string, field `"0"`
of an object, `undefined` otherwise). -/
def jsIndexZero : Option Json → Option Json
  | some (.arr es) => es.head?
  | some (.str s) => s.head?.map (fun c => Json.str [c])
  | some (.obj fs) => lookupField fs "0".data
  | _ => none

/-- `(part: any) => part.text` (src/main.ts:168): a `TypeError` on a
`null` element, the `text` field of an object, `undefined` otherwise. -/
def partText : Json → Except JsError (Option Json)
  | .null => .error .typeError
  | .obj fs => .ok (lookupField fs "text".data)
  | _ => .ok none

/-- Decimal rendering of an integer, as JavaScript `String(number)` for
integral values. -/
def intToStr (n : Int) : Str :=
  if n < 0 then '-' :: Nat.toDigits 10 n.natAbs else Nat.toDigits 10 n.toNat

mutual
/-- Conversion of one element by `Array.prototype.join`: `null` (and
`undefined`) become the empty string; other values convert as JavaScript
`String(v)` does — strings stay themselves, numbers and booleans render,
a nested array joins its elements with commas, an object renders as
`[object Object]`. -/
def jsElem : Json → Str
  | .null => []
  | .bool true => "true".data
  | .bool false => "false".data
  | .num n => intToStr n
  | .str s => s
  | .obj _ => "[object Object]".data
  | .arr [] => []
  | .arr (e :: es) => jsElem e ++ jsArrRest es

/-- Remaining elements of a joined array, each preceded by a comma. -/
def jsArrRest : List Json → Str
  | [] => []
  | e :: es => ',' :: (jsElem e ++ jsArrRest es)
end

/-- Conversion of one mapped `part.text` value for
`contentParts.join('')`: an absent (`undefined`) text contributes the
empty string. -/
def jsToStrOpt : Option Json → Str
  | none => []
  | some j => jsElem j

/-- `contentParts.join('')` (src/main.ts:170). -/
def joinParts (l : List (Option Json)) : Str :=
  l.foldr (fun o acc => jsToStrOpt o ++ acc) []

/-- Extraction of the markdown text from the parsed generation response
(src/main.ts:164-170): read `candidates`, throw
`Error('No candidates returned')` unless `candidates?.length` is truthy,
then map `part.text` over `candidates[0].content.parts` and join. -/
def extractText (genData : Json) : Except JsError Str :=
  match jsProp genData "candidates".data with
  | .error e => .error e
  | .ok candidates =>
    if jsTruthyOpt (jsLengthOpt candidates) = false then .error .noCandidates
    else
      match jsPropOpt (jsIndexZero candidates) "content".data with
      | .error e => .error e
      | .ok content =>
        match jsPropOpt content "parts".data with
        | .error e => .error e
        | .ok parts =>
          match parts with
          | some (.arr es) =>
            match es.mapM partText with
            | .error e => .error e
            | .ok texts => .ok (joinParts texts)
          | _ => .error .typeError

/-- `JSON.parse(uploadText).file.uri` (src/main.ts:128-129). -/
def fileUriOf (fileInfo : Json) : Except JsError (Option Json) :=
  match jsProp fileInfo "file".data with
  | .error e => .error e
  | .ok f => jsPropOpt f "uri".data

/-- One HTTP response observed by `convertFile`.  `status` determines
`response.ok` as in `fetch`; `headers` are the response headers; `body` is
the text read by `response.text()`; `parsed` is the outcome of
`JSON.parse` on that text when the code parses it (`none` models a body
that is not valid JSON, on which `JSON.parse` throws a `SyntaxError`). -/
structure HttpResponse where
  status : Nat
  headers : List (Str × Str)
  body : Str
  parsed : Option Json

/-- `Response.ok` of `fetch`: status in the inclusive range 200-299. -/
def HttpResponse.ok (r : HttpResponse) : Bool :=
  (200 ≤ r.status) && (r.status ≤ 299)

/-- Character-wise lower-casing, for the case-insensitive header lookup of
the `Headers.get` interface. -/
def lowerStr (s : Str) : Str := s.map Char.toLower

/-- `Headers.get`: case-insensitive lookup of a header name. -/
def getHeader (hs : List (Str × Str)) (k : Str) : Option Str :=
  (hs.find? (fun kv => lowerStr kv.fst == lowerStr k)).map (fun kv => kv.snd)

/-- The upload URL taken from the session-start response
(src/main.ts:100-105): `headers.get('x-goog-upload-url') ||
headers.get('X-Goog-Upload-URL')` followed by the `!uploadUrl` falsiness
check — both lookups are the same case-insensitive query, and a missing
header or an empty value is rejected. -/
def uploadUrlOf (r : HttpResponse) : Option Str :=
  match getHeader r.headers "x-goog-upload-url".data with
  | none => none
  | some v => if v = [] then none else some v

/-- The plugin settings used by `convertFile`.  The numeric `temperature`
setting is omitted from the model: `convertFile` never reads it (the
generation request deliberately does not transmit it). -/
structure Settings where
  apiKey : Str
  modelName : Str
  systemPrompt : Str
  userPrompt : Str

/-- The environment of one `convertFile` invocation: the host file store
and the three remote responses.  `readOk` tells whether
`vault.readBinary` succeeds (`readErrMsg` is the message of the error it
otherwise throws); `fileName`/`filePath` describe the source file;
`existsAtOutput` tells whether a file already exists at the computed
output path.  File-store writes are modelled as succeeding. -/
structure Env where
  readOk : Bool
  readErrMsg : Str
  fileName : Str
  filePath : Str
  startResp : HttpResponse
  uploadResp : HttpResponse
  genResp : HttpResponse
  existsAtOutput : Bool

/-- The three network calls of the pipeline, in order: the session-start
request, the upload-and-finalize request, the generation request. -/
inductive CallKind where
  | start
  | upload
  | generate
deriving DecidableEq

/-- The user-visible notices emitted by `convertFile`, one constructor per
`new Notice(...)` site of src/main.ts:59-186, carrying the dynamic data
interpolated into the message. -/
inductive Notice where
  | converting (name : Str)
  | apiKeyMissing
  | uploadStartFailed (status : Nat) (body : Str)
  | sessionStarted
  | noUploadUrl
  | uploadingFile
  | uploadContentFailed (status : Nat) (body : Str)
  | fileUploaded
  | waitingForApi
  | generateFailed (status : Nat) (body : Str)
  | apiResponseReceived
  | noFileUri
  | converted (name : Str) (newPath : Str)
  | errorConverting (e : JsError)
deriving DecidableEq

/-- Whether a notice reports a failure (as opposed to progress). -/
def isFailureNotice : Notice → Bool
  | .apiKeyMissing => true
  | .uploadStartFailed _ _ => true
  | .noUploadUrl => true
  | .uploadContentFailed _ _ => true
  | .generateFailed _ _ => true
  | .noFileUri => true
  | .errorConverting _ => true
  | _ => false

/-- The file-store write performed at the end of a successful run:
`vault.modify` on an existing file or `vault.create` (src/main.ts:174-180). -/
inductive WriteOp where
  | create (path : Str) (content : Str)
  | modify (path : Str) (content : Str)
deriving DecidableEq

/-- Target path of a write. -/
def WriteOp.path : WriteOp → Str
  | .create p _ => p
  | .modify p _ => p

/-- Content of a write. -/
def WriteOp.content : WriteOp → Str
  | .create _ c => c
  | .modify _ c => c

/-- Whether the write overwrites an existing file. -/
def WriteOp.isModify : WriteOp → Bool
  | .create _ _ => false
  | .modify _ _ => true

/-- The observable outcome of one `convertFile` invocation: the notices in
order of emission, the network calls issued in order, and the file write
performed (if any). -/
structure RunResult where
  notices : List Notice
  calls : List CallKind
  write : Option WriteOp
deriving DecidableEq

/-- Shallow embedding of `convertFile` (src/main.ts:59-186) over an
invocation environment.  The linear sequence of awaited steps becomes a
cascade of conditionals; any JavaScript exception lands in the `catch`
block, which emits the `Error converting file: ...` notice.  The binary
read happens before the API-key check, exactly as in the source. -/
def convertFile (st : Settings) (env : Env) : RunResult :=
  if env.readOk = false then
    ⟨[.converting env.fileName, .errorConverting (.hostRead env.readErrMsg)],
      [], none⟩
  else if trim st.apiKey = [] then
    ⟨[.converting env.fileName, .apiKeyMissing], [], none⟩
  else if env.startResp.ok = false then
    ⟨[.converting env.fileName,
      .uploadStartFailed env.startResp.status env.startResp.body],
      [.start], none⟩
  else match uploadUrlOf env.startResp with
  | none =>
    ⟨[.converting env.fileName, .sessionStarted, .noUploadUrl], [.start], none⟩
  | some _ =>
    if env.uploadResp.ok = false then
      ⟨[.converting env.fileName, .sessionStarted, .uploadingFile,
        .uploadContentFailed env.uploadResp.status env.uploadResp.body],
        [.start, .upload], none⟩
    else match env.uploadResp.parsed with
    | none =>
      ⟨[.converting env.fileName, .sessionStarted, .uploadingFile,
        .fileUploaded, .errorConverting .parseError], [.start, .upload], none⟩
    | some fileInfo =>
      match fileUriOf fileInfo with
      | .error e =>
        ⟨[.converting env.fileName, .sessionStarted, .uploadingFile,
          .fileUploaded, .errorConverting e], [.start, .upload], none⟩
      | .ok fileUri =>
        if jsTruthyOpt fileUri = false then
          ⟨[.converting env.fileName, .sessionStarted, .uploadingFile,
            .fileUploaded, .noFileUri], [.start, .upload], none⟩
        else if env.genResp.ok = false then
          ⟨[.converting env.fileName, .sessionStarted, .uploadingFile,
            .fileUploaded, .waitingForApi,
            .generateFailed env.genResp.status env.genResp.body],
            [.start, .upload, .generate], none⟩
        else match env.genResp.parsed with
        | none =>
          ⟨[.converting env.fileName, .sessionStarted, .uploadingFile,
            .fileUploaded, .waitingForApi, .apiResponseReceived,
            .errorConverting .parseError], [.start, .upload, .generate], none⟩
        | some genData =>
          match extractText genData with
          | .error e =>
            ⟨[.converting env.fileName, .sessionStarted, .uploadingFile,
              .fileUploaded, .waitingForApi, .apiResponseReceived,
              .errorConverting e], [.start, .upload, .generate], none⟩
          | .ok raw =>
            if env.existsAtOutput then
              ⟨[.converting env.fileName, .sessionStarted, .uploadingFile,
                .fileUploaded, .waitingForApi, .apiResponseReceived,
                .converted env.fileName (outputPath env.filePath)],
                [.start, .upload, .generate],
                some (.modify (outputPath env.filePath) (strip raw))⟩
            else
              ⟨[.converting env.fileName, .sessionStarted, .uploadingFile,
                .fileUploaded, .waitingForApi, .apiResponseReceived,
                .converted env.fileName (outputPath env.filePath)],
                [.start, .upload, .generate],
                some (.create (outputPath env.filePath) (strip raw))⟩

/-- Settings with a usable API key, for concrete runs. -/
def stOk : Settings := ⟨"key".data, "model".data, "sys".data, "user".data⟩

/-- Settings whose API key is whitespace only. -/
def stBlank : Settings := ⟨"   ".data, "model".data, "sys".data, "user".data⟩

/-- A successful session-start response carrying an upload URL. -/
def respStart : HttpResponse :=
  ⟨200, [("x-goog-upload-url".data, "https://upload".data)], "sb".data,
    some .null⟩

/-- A successful finalize-upload response whose body carries a file URI. -/
def respUpload : HttpResponse :=
  ⟨200, [], "ub".data,
    some (.obj [("file".data, .obj [("uri".data, .str "files/abc".data)])])⟩

/-- A successful generation response with one candidate whose single part
is fenced markdown text. -/
def respGen : HttpResponse :=
  ⟨200, [], "gb".data,
    some (.obj [("candidates".data, .arr [.obj [("content".data,
      .obj [("parts".data,
        .arr [.obj [("text".data,
          .str "```markdown\n# Title\n```".data)]])])]])])⟩

/-- An all-success environment for `doc.pdf` with no existing output. -/
def envOk : Env :=
  ⟨true, [], "doc.pdf".data, "doc.pdf".data, respStart, respUpload, respGen,
    false⟩

/-- Claim C10: the binary read happens before the API-key check.  Whenever
the host read fails — for any settings, including a blank or
whitespace-only API key — the run emits the generic unexpected-error
notice (not the missing-key notice), performs no network call and writes
nothing. -/
theorem c10_read_before_key_check (st : Settings) (env : Env)
    (h : env.readOk = false) :
    convertFile st env =
      ⟨[.converting env.fileName,
        .errorConverting (.hostRead env.readErrMsg)], [], none⟩ := by
  unfold convertFile
  rw [h]
  rfl

/-- Claim C10, witness: a failing read with a blank API key produces the
generic error notice and no network call. -/
theorem c10_witness :
    convertFile stBlank
      ⟨false, "read failed".data, "doc.pdf".data, "doc.pdf".data,
        respStart, respUpload, respGen, false⟩ =
      ⟨[.converting "doc.pdf".data,
        .errorConverting (.hostRead "read failed".data)], [], none⟩ :=
  c10_read_before_key_check stBlank _ rfl

/-- Claim C6: when the API key is empty or whitespace-only (and the host
read succeeds), the run emits the missing-key notice, issues no network
call and writes nothing. -/
theorem c6_blank_key_no_network (st : Settings) (env : Env)
    (hread : env.readOk = true)
    (hkey : ∀ c ∈ st.apiKey, isJsSpace c = true) :
    convertFile st env =
      ⟨[.converting env.fileName, .apiKeyMissing], [], none⟩ := by
  unfold convertFile
  rw [hread, trim_eq_nil_of_space st.apiKey hkey]
  simp

/-- Claim C6, witness: the whitespace-only key of `stBlank` aborts the run
before any network call. -/
theorem c6_witness :
    convertFile stBlank envOk =
      ⟨[.converting "doc.pdf".data, .apiKeyMissing], [], none⟩ :=
  c6_blank_key_no_network stBlank envOk rfl (by decide)

/-- Claim C7: a non-success session-start response aborts the pipeline
after exactly the one session-start network call, with the failure notice
carrying that response's status code and body. -/
theorem c7_start_failure_single_call (st : Settings) (env : Env)
    (hread : env.readOk = true) (hkey : trim st.apiKey ≠ [])
    (hfail : env.startResp.ok = false) :
    convertFile st env =
      ⟨[.converting env.fileName,
        .uploadStartFailed env.startResp.status env.startResp.body],
        [.start], none⟩ := by
  unfold convertFile
  rw [hread, hfail]
  simp [hkey]

/-- Claim C7, witness: an HTTP 500 session-start response yields exactly
one network call and a notice carrying 500 and the body. -/
theorem c7_witness :
    convertFile stOk
      ⟨true, [], "doc.pdf".data, "doc.pdf".data,
        ⟨500, [], "server error".data, none⟩, respUpload, respGen, false⟩ =
      ⟨[.converting "doc.pdf".data,
        .uploadStartFailed 500 "server error".data], [.start], none⟩ :=
  c7_start_failure_single_call stOk _ rfl (by decide) rfl

/-- An environment whose finalize-upload body parses to an object without
a `file` key. -/
def envNoFileKey : Env :=
  ⟨true, [], "doc.pdf".data, "doc.pdf".data, respStart,
    ⟨200, [], "empty-object".data, some (.obj [])⟩, respGen, false⟩

/-- Claim C4, counterexample: a finalize-upload body parsing to an object
without a `file` key does not produce the `No file URI returned` notice —
the access `fileInfo.file.uri` throws a `TypeError` and the run ends in
the generic unexpected-error notice instead (still without a generation
call). -/
theorem c4_counterexample :
    (convertFile stOk envNoFileKey).notices =
      [.converting "doc.pdf".data, .sessionStarted, .uploadingFile,
        .fileUploaded, .errorConverting .typeError]
  ∧ Notice.noFileUri ∉ (convertFile stOk envNoFileKey).notices := by
  decide

/-- Claim C4 (amended): when the finalize-upload body parses but yields no
truthy file URI, the pipeline aborts after the two upload calls without
issuing the generation request and writes nothing; the
`No file URI returned` notice appears exactly when the property access
`fileInfo.file.uri` evaluates without throwing (the parsed value has a
non-null `file` entry), while a parsed value whose `file` access chain
throws ends in the generic unexpected-error notice. -/
theorem c4_missing_uri (st : Settings) (env : Env)
    (hread : env.readOk = true) (hkey : trim st.apiKey ≠ [])
    (hstart : env.startResp.ok = true)
    (hurl : (uploadUrlOf env.startResp).isSome = true)
    (hup : env.uploadResp.ok = true) (j : Json)
    (hparsed : env.uploadResp.parsed = some j)
    (hnouri : ∀ u, fileUriOf j = .ok u → jsTruthyOpt u = false) :
    (convertFile st env).calls = [.start, .upload]
  ∧ (convertFile st env).write = none
  ∧ (∀ u, fileUriOf j = .ok u →
      (convertFile st env).notices =
        [.converting env.fileName, .sessionStarted, .uploadingFile,
          .fileUploaded, .noFileUri])
  ∧ (∀ e, fileUriOf j = .error e →
      (convertFile st env).notices =
        [.converting env.fileName, .sessionStarted, .uploadingFile,
          .fileUploaded, .errorConverting e]) := by
  obtain ⟨u0, hu0⟩ := Option.isSome_iff_exists.mp hurl
  cases hf : fileUriOf j with
  | error e =>
    unfold convertFile
    rw [hread, hstart, hup, hparsed, hu0]
    simp [hkey, hf]
  | ok u =>
    unfold convertFile
    rw [hread, hstart, hup, hparsed, hu0]
    simp [hkey, hf, hnouri u hf]

/-- An environment whose finalize-upload body parses to an object with a
`file` entry lacking a `uri` field. -/
def envNoUri : Env :=
  ⟨true, [], "doc.pdf".data, "doc.pdf".data, respStart,
    ⟨200, [], "no-uri".data, some (.obj [("file".data, .obj [])])⟩,
    respGen, false⟩

/-- Claim C4, witness: a parsed body with a `file` entry but no `uri`
produces the `No file URI returned` notice, two network calls and no
write. -/
theorem c4_witness :
    (convertFile stOk envNoUri).notices =
      [.converting "doc.pdf".data, .sessionStarted, .uploadingFile,
        .fileUploaded, .noFileUri]
  ∧ (convertFile stOk envNoUri).calls = [.start, .upload]
  ∧ (convertFile stOk envNoUri).write = none := by
  have h := c4_missing_uri stOk envNoUri rfl (by decide) rfl rfl rfl
    (.obj [("file".data, .obj [])]) rfl
    (fun u hu => by
      rw [show fileUriOf (Json.obj [("file".data, Json.obj [])]) =
        Except.ok none from rfl] at hu
      injection hu with h'
      rw [← h']
      rfl)
  exact ⟨h.2.2.1 none rfl, h.1, h.2.1⟩

/-- Claim C5: failure atomicity.  Every run either fails — producing
exactly one failure notice and no file-store write — or succeeds,
producing no failure notice and exactly one write. -/
theorem c5_failure_atomicity (st : Settings) (env : Env) :
    ((convertFile st env).notices.countP isFailureNotice = 1
      ∧ (convertFile st env).write = none)
  ∨ ((convertFile st env).notices.countP isFailureNotice = 0
      ∧ (convertFile st env).write ≠ none) := by
  unfold convertFile
  repeat' split
  all_goals simp [List.countP_cons, isFailureNotice]

/-- Claim C8: every write of a successful run targets the computed output
path, overwrites exactly when a file already exists there, and writes the
post-processed markdown extracted from the parsed generation response. -/
theorem c8_write_semantics (st : Settings) (env : Env) (w : WriteOp)
    (h : (convertFile st env).write = some w) :
    w.path = outputPath env.filePath
  ∧ w.isModify = env.existsAtOutput
  ∧ ∃ g raw, env.genResp.parsed = some g ∧ extractText g = .ok raw
      ∧ w.content = strip raw := by
  unfold convertFile at h
  repeat' split at h
  all_goals simp only [] at h
  all_goals first
  | (exfalso; exact Option.noConfusion h)
  | (rename_i x1 g hg x2 raw hext hex
     injection h with h'
     subst h'
     refine ⟨rfl, ?_, g, raw, hg, hext, rfl⟩
     simp only [WriteOp.isModify]
     first
     | exact hex.symm
     | (rw [Bool.not_eq_true] at hex
        exact hex.symm))

/-- Claim C8, witness: the all-success run on `doc.pdf` with no existing
output creates `doc.md` with the fence-stripped text. -/
theorem c8_witness :
    (WriteOp.create "doc.md".data "# Title".data).path =
      outputPath "doc.pdf".data
  ∧ (WriteOp.create "doc.md".data "# Title".data).isModify =
      envOk.existsAtOutput
  ∧ ∃ g raw, envOk.genResp.parsed = some g ∧ extractText g = .ok raw
      ∧ (WriteOp.create "doc.md".data "# Title".data).content = strip raw :=
  c8_write_semantics stOk envOk (WriteOp.create "doc.md".data "# Title".data)
    (by decide)

